import Mathlib

/-!
Shallow embedding of the AI cricket analyst dashboard (`app.py`).

The two CSV tables become lists of records; the pandas aggregations become
list functions: `groupby` with its default ascending key sort and null-key
drop, `nlargest` as a stable descending sort plus `take`, `idxmax` as first
maximum, `iloc[0]` as list head with an explicit `IndexError`.  Python
exceptions that can escape a call are made explicit with `Except PyError`;
the remote chat-completion client is a parameter of type
`Client := String → Except PyError String`.  Float rounding `round(x, 2)` is
modelled over exact rationals.  String lower-casing, lexicographic order and
stripping are modelled directly on the character lists so that every
definition evaluates inside the kernel.  Chart styling and UI wiring are
presentation glue and are not modelled beyond the data handed to each chart.
-/

namespace Cricket

/-- A row of the match metadata table (`matches.csv`): a match id and its season label. -/
structure MatchRecord where
  id : Nat
  season : String
deriving DecidableEq

/-- A row of the ball-by-ball table (`deliveries.csv`) before the season join.
`batter` and `bowler` are `Option` because a CSV cell can be missing (pandas `NaN`). -/
structure RawDelivery where
  match_id : Nat
  batter : Option String
  bowler : Option String
  batsman_runs : Nat
  is_wicket : Bool
deriving DecidableEq

/-- A delivery row after the left join with the match table:
`season` is `none` when no match row carries the delivery's `match_id` (join miss). -/
structure Delivery extends RawDelivery where
  season : Option String
deriving DecidableEq

/-- The left join `deliveries.merge(matches[[id, season]], ...)`, assuming unique
match ids: each delivery picks the season of the first match row with its id. -/
def mergeSeasons (ms : List MatchRecord) (raw : List RawDelivery) : List Delivery :=
  raw.map fun d =>
    { toRawDelivery := d
      season := (ms.find? fun m => m.id == d.match_id).map (·.season) }

/-- Python substring test `k in q`, on the underlying character lists. -/
def strContains (q k : String) : Bool := decide (k.data <:+: q.data)

/-- Lexicographic comparison of character lists, written by structural recursion
so that the kernel can evaluate it on literals. -/
def lexLe : List Char → List Char → Bool
  | [], _ => true
  | _ :: _, [] => false
  | a :: as, b :: bs => if a < b then true else if b < a then false else lexLe as bs

/-- The lexicographic string order used by Python `sorted` and pandas key sorting. -/
def strLe (a b : String) : Prop := lexLe a.data b.data = true

instance : DecidableRel strLe := fun a b => inferInstanceAs (Decidable (lexLe a.data b.data = true))

/-- Python `str.lower()`, character by character. -/
def lower (s : String) : String := ⟨s.data.map Char.toLower⟩

/-- Python `str.strip()`: drop whitespace from both ends. -/
def pyStrip (s : String) : String :=
  ⟨((s.data.dropWhile Char.isWhitespace).reverse.dropWhile Char.isWhitespace).reverse⟩

/-- `players = sorted(deliveries["batter"].dropna().unique())`. -/
def players (ds : List Delivery) : List String :=
  List.insertionSort strLe (ds.filterMap (·.batter)).dedup

/-- Deduplicated keys in ascending order, as pandas `groupby` (default `sort=True`)
yields them. -/
def sortedKeys (l : List String) : List String :=
  List.insertionSort strLe l.dedup

/-- Total `batsman_runs` over a whole delivery table. -/
def totalRuns (ds : List Delivery) : Nat := (ds.map (·.batsman_runs)).sum

/-- `deliveries[deliveries["batter"] == player]`. -/
def deliveriesOf (ds : List Delivery) (p : String) : List Delivery :=
  ds.filter fun d => d.batter == some p

/-- Summed `batsman_runs` of one batter group. -/
def runsOfBatter (ds : List Delivery) (p : String) : Nat :=
  ((deliveriesOf ds p).map (·.batsman_runs)).sum

/-- `deliveries.groupby("batter")["batsman_runs"].sum()`: key-ascending list of
(batter, summed runs); null batters are dropped by `groupby`. -/
def groupRunsByBatter (ds : List Delivery) : List (String × Nat) :=
  (sortedKeys (ds.filterMap (·.batter))).map fun p => (p, runsOfBatter ds p)

/-- Descending-by-value order used by pandas `nlargest`. -/
def valDesc (a b : String × Nat) : Prop := b.2 ≤ a.2

instance : DecidableRel valDesc := fun a b => inferInstanceAs (Decidable (b.2 ≤ a.2))

/-- `Series.nlargest n`: stable descending sort by value, first `n` rows. -/
def nlargest (n : Nat) (l : List (String × Nat)) : List (String × Nat) :=
  (List.insertionSort valDesc l).take n

/-- `top_run_scorers` from `app.py`. -/
def top_run_scorers (ds : List Delivery) : List (String × Nat) :=
  nlargest 10 (groupRunsByBatter ds)

/-- `deliveries[deliveries["is_wicket"] == 1]`. -/
def wicketRows (ds : List Delivery) : List Delivery := ds.filter (·.is_wicket)

/-- Size of one bowler group among the wicket rows. -/
def wicketsOfBowler (ds : List Delivery) (b : String) : Nat :=
  ((wicketRows ds).filter fun d => d.bowler == some b).length

/-- `top_wicket_takers` from `app.py`. -/
def top_wicket_takers (ds : List Delivery) : List (String × Nat) :=
  nlargest 10
    ((sortedKeys ((wicketRows ds).filterMap (·.bowler))).map fun b => (b, wicketsOfBowler ds b))

/-- Python `round(x, 2)` modelled over exact rationals. -/
def round2 (x : ℚ) : ℚ := (round (x * 100) : ℤ) / 100

/-- Balls faced: `df.shape[0]` of the frame filtered to one batter. -/
def ballsOf (ds : List Delivery) (p : String) : Nat := (deliveriesOf ds p).length

/-- `sr = round((runs / balls) * 100, 2) if balls else 0`. -/
def strikeRateOf (ds : List Delivery) (p : String) : ℚ :=
  if ballsOf ds p = 0 then 0
  else round2 ((runsOfBatter ds p : ℚ) / (ballsOf ds p : ℚ) * 100)

/-- `df["match_id"].nunique()`. -/
def matchesPlayedOf (ds : List Delivery) (p : String) : Nat :=
  ((deliveriesOf ds p).map (·.match_id)).dedup.length

/-- Summed runs of one (player, season) group. -/
def seasonRunsOf (ds : List Delivery) (p s : String) : Nat :=
  (((deliveriesOf ds p).filter fun d => d.season == some s).map (·.batsman_runs)).sum

/-- `df.groupby("season")["batsman_runs"].sum()` for one player: key-ascending,
null seasons dropped. -/
def seasonGroupsOf (ds : List Delivery) (p : String) : List (String × Nat) :=
  (sortedKeys ((deliveriesOf ds p).filterMap (·.season))).map fun s => (s, seasonRunsOf ds p s)

/-- Fold of `Series.idxmax`: keeps the first maximal value. -/
def idxmaxAux : List (String × Nat) → String × Nat → String
  | [], best => best.1
  | x :: xs, best => idxmaxAux xs (if best.2 < x.2 then x else best)

/-- `Series.idxmax`: label of the first maximal value, `none` on an empty series
(where pandas raises `ValueError`). -/
def idxmax? : List (String × Nat) → Option String
  | [] => none
  | x :: xs => some (idxmaxAux xs x)

/-- Python exceptions that can escape the embedded functions. -/
inductive PyError where
  | valueError
  | indexError
  | remote (msg : String)
deriving DecidableEq

/-- `player_stats` from `app.py`: runs, strike rate and distinct-match count over
the filtered frame, then `best_season` via `idxmax`, which raises `ValueError`
when the per-season grouping is empty (unknown player, or no non-null season). -/
def player_stats (ds : List Delivery) (p : String) : Except PyError (Nat × ℚ × Nat × String) :=
  match idxmax? (seasonGroupsOf ds p) with
  | none => .error .valueError
  | some best => .ok (runsOfBatter ds p, strikeRateOf ds p, matchesPlayedOf ds p, best)

/-- `player_trend` from `app.py`. -/
def player_trend (ds : List Delivery) (p : String) : List (String × Nat) :=
  seasonGroupsOf ds p

/-- The fixed prompt template of `llm_answer` (f-string spliced out). -/
def mkPrompt (facts question : String) : String :=
  "\nYou are an IPL (Indian Premier League) cricket analyst.\n\nRULES:\n- Talk ONLY about IPL.\n- Use ONLY the facts provided.\n- Do NOT mention datasets, calculations, or models.\n- 2-3 crisp professional sentences.\n- Sound like Cricinfo / IPL broadcast analysis.\n\nFACTS:\n" ++ facts ++ "\n\nQUESTION:\n" ++ question ++ "\n\nFINAL IPL ANALYSIS:\n"

/-- The remote chat-completion call, abstracted: a prompt either yields the first
choice's message content or fails with a remote-service error. -/
abbrev Client := String → Except PyError String

/-- `llm_answer` from `app.py`: build the prompt, call the client, strip the text. -/
def llm_answer (client : Client) (facts question : String) : Except PyError String :=
  (client (mkPrompt facts question)).map pyStrip

/-- Bar-chart payload: the (label, value) rows handed to `plotly.express.bar`
(styling kept out as presentation glue). -/
abbrev Chart := List (String × Nat)

def runKeywords : List String := ["run", "runs", "run scorer"]

def wicketKeywords : List String := ["wicket", "wickets", "wicket taker"]

/-- `any(k in q for k in ks)`. -/
def matchesAny (q : String) (ks : List String) : Bool := ks.any fun k => strContains q k

/-- The run-scorer branch of `ask_ai`; `df.iloc[0]` raises `IndexError` on an empty frame. -/
def runScorerBranch (client : Client) (ds : List Delivery) (question : String) :
    Except PyError (String × Option Chart × String) :=
  match top_run_scorers ds with
  | [] => .error .indexError
  | leader :: rest =>
    (llm_answer client
        ("In the IPL, " ++ leader.1 ++ " is the highest run scorer with " ++
          toString leader.2 ++ " runs.")
        question).map
      fun ans => (ans, some (leader :: rest), "")

/-- The wicket-taker branch of `ask_ai`; `df.iloc[0]` raises `IndexError` on an empty frame. -/
def wicketTakerBranch (client : Client) (ds : List Delivery) (question : String) :
    Except PyError (String × Option Chart × String) :=
  match top_wicket_takers ds with
  | [] => .error .indexError
  | leader :: rest =>
    (llm_answer client
        ("In the IPL, " ++ leader.1 ++ " is the leading wicket taker with " ++
          toString leader.2 ++ " wickets.")
        question).map
      fun ans => (ans, some (leader :: rest), "")

/-- `ask_ai` from `app.py`: lower-case the question, check the run keywords first,
then the wicket keywords, else fall back to a generic fact with no chart.  Every
branch returns the empty string as its third component. -/
def ask_ai (client : Client) (ds : List Delivery) (question : String) :
    Except PyError (String × Option Chart × String) :=
  let q := lower question
  if matchesAny q runKeywords then runScorerBranch client ds question
  else if matchesAny q wicketKeywords then wicketTakerBranch client ds question
  else
    (llm_answer client
        "This question relates to IPL cricket but no numerical fact was matched."
        question).map
      fun ans => (ans, none, "")

/-- The comparison fact block of `compare_players`. -/
def compareFacts (p1 : String) (r1 : Nat) (sr1 : ℚ) (m1 : Nat)
    (p2 : String) (r2 : Nat) (sr2 : ℚ) (m2 : Nat) : String :=
  "\nIn the IPL:\n" ++ p1 ++ ": " ++ toString r1 ++ " runs, strike rate " ++
    toString sr1 ++ ", " ++ toString m1 ++ " matches\n" ++ p2 ++ ": " ++
    toString r2 ++ " runs, strike rate " ++ toString sr2 ++ ", " ++
    toString m2 ++ " matches\n"

/-- `compare_players` from `app.py`: stats for both players (exceptions propagate
in order, written as explicit matches), one model call, and a two-bar chart of
total runs. -/
def compare_players (client : Client) (ds : List Delivery) (p1 p2 : String) :
    Except PyError (String × Chart) :=
  match player_stats ds p1 with
  | .error e => .error e
  | .ok (r1, sr1, m1, _) =>
    match player_stats ds p2 with
    | .error e => .error e
    | .ok (r2, sr2, m2, _) =>
      match llm_answer client (compareFacts p1 r1 sr1 m1 p2 r2 sr2 m2)
          ("Compare " ++ p1 ++ " vs " ++ p2) with
      | .error e => .error e
      | .ok ans => .ok (ans, [(p1, r1), (p2, r2)])

/-- A client that always answers. -/
def stubClient : Client := fun _ => .ok "ANS"

/-- A client whose remote call always fails. -/
def failClient : Client := fun _ => .error (.remote "boom")

/-- A small concrete delivery table used to instantiate the theorems. -/
def exTable : List Delivery :=
  [⟨⟨1, some "A", some "X", 4, true⟩, some "2020"⟩,
   ⟨⟨1, some "A", some "X", 6, false⟩, some "2020"⟩,
   ⟨⟨2, some "B", some "Y", 1, false⟩, some "2021"⟩]

/-- Concrete table for the season-trend example: player A scores 30 in 2020 and 50 in 2021. -/
def trendTable : List Delivery :=
  [⟨⟨1, some "A", some "X", 30, false⟩, some "2020"⟩,
   ⟨⟨2, some "A", some "Y", 50, false⟩, some "2021"⟩]

/-- Concrete one-row table: player A faced one ball for 4 runs in season 2020. -/
def oneBall : List Delivery :=
  [⟨⟨1, some "A", some "X", 4, false⟩, some "2020"⟩]

/-- Concrete one-row table where "NoBat" appears only as a bowler, never as a batter. -/
def bowlerOnly : List Delivery :=
  [⟨⟨1, some "A", some "NoBat", 4, true⟩, some "2020"⟩]

/-- A delivery with `is_wicket = false`, used to instantiate the wicket-count theorems. -/
def noWicketBall : Delivery := ⟨⟨3, some "C", some "Z", 2, false⟩, some "2020"⟩

/-! ### Order facts for the embedded string comparison -/

theorem lexLe_total (as : List Char) : ∀ bs : List Char, lexLe as bs = true ∨ lexLe bs as = true := by
  induction as with
  | nil => intro bs; exact Or.inl rfl
  | cons a as ih =>
    intro bs
    cases bs with
    | nil => exact Or.inr rfl
    | cons b bs =>
      rcases lt_trichotomy a b with h | h | h
      · exact Or.inl (by simp [lexLe, h])
      · subst h
        rcases ih bs with h2 | h2
        · exact Or.inl (by simp [lexLe, h2])
        · exact Or.inr (by simp [lexLe, h2])
      · exact Or.inr (by simp [lexLe, h])

theorem lexLe_trans (as : List Char) : ∀ bs cs : List Char,
    lexLe as bs = true → lexLe bs cs = true → lexLe as cs = true := by
  induction as with
  | nil => intro bs cs _ _; rfl
  | cons a as ih =>
    intro bs cs h1 h2
    cases bs with
    | nil => simp [lexLe] at h1
    | cons b bs =>
      cases cs with
      | nil => simp [lexLe] at h2
      | cons c cs =>
        simp only [lexLe] at h1 h2 ⊢
        by_cases hab : a < b
        · by_cases hbc : b < c
          · simp [lt_trans hab hbc]
          · by_cases hcb : c < b
            · simp [hbc, hcb] at h2
            · have hbceq : b = c := le_antisymm (not_lt.mp hcb) (not_lt.mp hbc)
              subst hbceq
              simp [hab]
        · by_cases hba : b < a
          · simp [hab, hba] at h1
          · have habeq : a = b := le_antisymm (not_lt.mp hba) (not_lt.mp hab)
            subst habeq
            simp only [lt_irrefl, if_false] at h1
            by_cases hac : a < c
            · simp [hac]
            · by_cases hca : c < a
              · simp [hac, hca] at h2
              · simp only [lt_irrefl, hac, hca, if_false] at h2 ⊢
                exact ih bs cs h1 h2

instance : IsTotal String strLe := ⟨fun a b => lexLe_total a.data b.data⟩

instance : IsTrans String strLe := ⟨fun a b c => lexLe_trans a.data b.data c.data⟩

instance : IsTotal (String × Nat) valDesc := ⟨fun a b => Nat.le_total b.2 a.2⟩

instance : IsTrans (String × Nat) valDesc := ⟨fun _ _ _ h1 h2 => Nat.le_trans h2 h1⟩

/-! ### Facts about grouped keys -/

theorem sortedKeys_sorted (l : List String) : (sortedKeys l).Pairwise strLe :=
  List.sorted_insertionSort strLe l.dedup

theorem sortedKeys_nodup (l : List String) : (sortedKeys l).Nodup :=
  (List.perm_insertionSort strLe l.dedup).symm.nodup (List.nodup_dedup l)

theorem mem_sortedKeys {x : String} {l : List String} : x ∈ sortedKeys l ↔ x ∈ l :=
  (List.perm_insertionSort strLe l.dedup).mem_iff.trans (List.mem_dedup)

/-! ### Sum bounds for the grouped aggregations -/

theorem sum_take_le (l : List (String × Nat)) (n : Nat) :
    ((l.take n).map (·.2)).sum ≤ (l.map (·.2)).sum := by
  conv_rhs => rw [← List.take_append_drop n l]
  rw [List.map_append, List.sum_append]
  exact Nat.le_add_right _ _

theorem sum_map_add_nat {α : Type} (l : List α) (f g : α → Nat) :
    (l.map fun a => f a + g a).sum = (l.map f).sum + (l.map g).sum := by
  induction l with
  | nil => rfl
  | cons a l ih =>
    simp only [List.map_cons, List.sum_cons, ih]
    omega

theorem sum_single_delivery (d : Delivery) (r : Nat) :
    ∀ ks : List String, ks.Nodup →
      (ks.map fun p => if d.batter == some p then r else 0).sum ≤ r := by
  intro ks
  induction ks with
  | nil => intro _; exact Nat.zero_le r
  | cons k ks ih =>
    intro hnd
    rw [List.map_cons, List.sum_cons]
    by_cases hb : d.batter = some k
    · have hzero : (ks.map fun p => if d.batter == some p then r else 0).sum = 0 := by
        apply List.sum_eq_zero
        intro x hx
        rcases List.mem_map.mp hx with ⟨p, hp, hpx⟩
        have hpk : p ≠ k := fun he => (List.nodup_cons.mp hnd).1 (he ▸ hp)
        have hcond : (d.batter == some p) = false := by
          simp only [hb, beq_eq_false_iff_ne, ne_eq, Option.some.injEq]
          exact fun he => hpk he.symm
        rw [← hpx, hcond]
        rfl
      rw [hzero]
      split <;> omega
    · have hcond : (d.batter == some k) = false := by
        simp only [beq_eq_false_iff_ne, ne_eq]
        exact hb
      rw [hcond]
      have := ih (List.nodup_cons.mp hnd).2
      simpa using this

theorem sum_runsOfBatter_le (ds : List Delivery) :
    ∀ ks : List String, ks.Nodup → (ks.map fun p => runsOfBatter ds p).sum ≤ totalRuns ds := by
  induction ds with
  | nil =>
    intro ks _
    have hz : (ks.map fun p => runsOfBatter [] p).sum = 0 := by
      apply List.sum_eq_zero
      intro x hx
      rcases List.mem_map.mp hx with ⟨p, _, hpx⟩
      simpa [runsOfBatter, deliveriesOf] using hpx.symm
    simp [hz, totalRuns]
  | cons d ds ih =>
    intro ks hnd
    have hsplit : ∀ p, runsOfBatter (d :: ds) p =
        (if d.batter == some p then d.batsman_runs else 0) + runsOfBatter ds p := by
      intro p
      unfold runsOfBatter deliveriesOf
      rw [List.filter_cons]
      by_cases hb : (d.batter == some p) = true
      · simp [hb]
      · simp [hb]
    calc (ks.map fun p => runsOfBatter (d :: ds) p).sum
        = (ks.map fun p =>
            (if d.batter == some p then d.batsman_runs else 0) + runsOfBatter ds p).sum := by
          simp only [hsplit]
      _ = (ks.map fun p => if d.batter == some p then d.batsman_runs else 0).sum +
            (ks.map fun p => runsOfBatter ds p).sum := sum_map_add_nat ks _ _
      _ ≤ d.batsman_runs + totalRuns ds :=
          Nat.add_le_add (sum_single_delivery d d.batsman_runs ks hnd) (ih ks hnd)
      _ = totalRuns (d :: ds) := by simp [totalRuns]

theorem groupRuns_sum_le (ds : List Delivery) :
    ((groupRunsByBatter ds).map (·.2)).sum ≤ totalRuns ds := by
  unfold groupRunsByBatter
  rw [List.map_map]
  exact sum_runsOfBatter_le ds _ (sortedKeys_nodup _)

/-- A successful `Except.map` application comes from a successful inner value. -/
theorem except_map_ok {α β : Type} {f : α → β} {r : Except PyError α} {out : β}
    (h : r.map f = .ok out) : ∃ v, r = .ok v ∧ out = f v := by
  cases r with
  | error e => simp [Except.map] at h
  | ok v => exact ⟨v, rfl, by simpa [Except.map] using h.symm⟩

/-! ### Claim theorems -/

/-- Claim C5: `top_run_scorers` always returns at most 10 entries, each entry is a
batter paired with its summed `batsman_runs`, the entries are sorted descending by
that sum, and the sum of the returned totals is at most the total runs in the whole
delivery table. -/
theorem top_run_scorers_spec (ds : List Delivery) :
    (top_run_scorers ds).length ≤ 10 ∧
    ((top_run_scorers ds).map (·.2)).Pairwise (fun a b => b ≤ a) ∧
    ((top_run_scorers ds).map (·.2)).sum ≤ totalRuns ds ∧
    ∀ pr ∈ top_run_scorers ds, pr.2 = runsOfBatter ds pr.1 := by
  refine ⟨?_, ?_, ?_, ?_⟩
  · unfold top_run_scorers nlargest
    rw [List.length_take]
    exact min_le_left _ _
  · unfold top_run_scorers nlargest
    have hs : (List.insertionSort valDesc (groupRunsByBatter ds)).Pairwise valDesc :=
      List.sorted_insertionSort valDesc _
    have ht : ((List.insertionSort valDesc (groupRunsByBatter ds)).take 10).Pairwise valDesc :=
      List.Pairwise.sublist (List.take_sublist _ _) hs
    rw [List.pairwise_map]
    exact ht
  · calc ((top_run_scorers ds).map (·.2)).sum
        ≤ ((List.insertionSort valDesc (groupRunsByBatter ds)).map (·.2)).sum :=
          sum_take_le _ 10
      _ = ((groupRunsByBatter ds).map (·.2)).sum :=
          List.Perm.sum_eq ((List.perm_insertionSort valDesc _).map _)
      _ ≤ totalRuns ds := groupRuns_sum_le ds
  · intro pr hpr
    have h1 : pr ∈ groupRunsByBatter ds := by
      have h2 : pr ∈ List.insertionSort valDesc (groupRunsByBatter ds) :=
        List.mem_of_mem_take hpr
      exact (List.perm_insertionSort valDesc _).mem_iff.mp h2
    rcases List.mem_map.mp h1 with ⟨p, _, hp⟩
    rw [← hp]

/-- Witness for C5 at a concrete table. -/
theorem top_run_scorers_spec_witness :
    ("A", 10) ∈ top_run_scorers exTable ∧ 10 = runsOfBatter exTable "A" :=
  ⟨by decide, (top_run_scorers_spec exTable).2.2.2 ("A", 10) (by decide)⟩

/-- Claim C6: a delivery record with `is_wicket = false` never contributes to
`top_wicket_takers`: inserting such a record anywhere in the table leaves the
result unchanged. -/
theorem top_wicket_takers_ignores_non_wickets (ds1 ds2 : List Delivery) (d : Delivery)
    (hd : d.is_wicket = false) :
    top_wicket_takers (ds1 ++ d :: ds2) = top_wicket_takers (ds1 ++ ds2) := by
  have hw : wicketRows (ds1 ++ d :: ds2) = wicketRows (ds1 ++ ds2) := by
    unfold wicketRows
    rw [List.filter_append, List.filter_append, List.filter_cons]
    simp [hd]
  unfold top_wicket_takers wicketsOfBowler
  rw [hw]

/-- Witness for C6 at a concrete table. -/
theorem top_wicket_takers_ignores_non_wickets_witness :
    noWicketBall.is_wicket = false ∧
    top_wicket_takers ([] ++ noWicketBall :: exTable) = top_wicket_takers ([] ++ exTable) :=
  ⟨rfl, top_wicket_takers_ignores_non_wickets [] exTable noWicketBall rfl⟩

/-- Claim C8: `player_trend` groups a player's deliveries by season, sums
`batsman_runs` per season, and returns the pairs strictly ascending by season;
in particular 30 runs in season 2020 and 50 in season 2021 yield
`[("2020", 30), ("2021", 50)]`. -/
theorem player_trend_spec :
    (∀ (ds : List Delivery) (p : String),
      (player_trend ds p).Pairwise (fun a b => strLe a.1 b.1 ∧ a.1 ≠ b.1) ∧
      ∀ pr ∈ player_trend ds p, pr.2 = seasonRunsOf ds p pr.1) ∧
    player_trend trendTable "A" = [("2020", 30), ("2021", 50)] := by
  refine ⟨fun ds p => ⟨?_, ?_⟩, by decide⟩
  · unfold player_trend seasonGroupsOf
    rw [List.pairwise_map]
    exact (sortedKeys_sorted _).and (sortedKeys_nodup _)
  · intro pr hpr
    unfold player_trend seasonGroupsOf at hpr
    rcases List.mem_map.mp hpr with ⟨s, _, hs⟩
    rw [← hs]

/-- Witness for C8 at a concrete table. -/
theorem player_trend_spec_witness :
    ("2020", 30) ∈ player_trend trendTable "A" ∧ 30 = seasonRunsOf trendTable "A" "2020" :=
  ⟨by decide, (player_trend_spec.1 trendTable "A").2 ("2020", 30) (by decide)⟩

/-- Claim C10: the player list exposed to the selection UI is exactly the distinct
non-null batter names of the delivery table: sorted ascending, duplicate-free, and
containing a name iff some delivery row has it as its (non-null) batter. -/
theorem players_spec (ds : List Delivery) :
    (players ds).Pairwise strLe ∧ (players ds).Nodup ∧
    ∀ x : String, x ∈ players ds ↔ ∃ d ∈ ds, d.batter = some x := by
  refine ⟨List.sorted_insertionSort strLe _,
    (List.perm_insertionSort strLe _).symm.nodup (List.nodup_dedup _), fun x => ?_⟩
  unfold players
  rw [(List.perm_insertionSort strLe _).mem_iff, List.mem_dedup, List.mem_filterMap]

/-- Witness for C10 at a concrete table. -/
theorem players_spec_witness : "A" ∈ players exTable :=
  ((players_spec exTable).2.2 "A").mpr ⟨⟨⟨1, some "A", some "X", 4, true⟩, some "2020"⟩, by decide, rfl⟩

/-- Claim C4: when the lower-cased question contains both a run keyword and a
wicket keyword, `ask_ai` dispatches to the run-scorer branch, because the run
intent is checked first. -/
theorem ask_ai_run_branch_first (client : Client) (ds : List Delivery) (q : String)
    (hr : matchesAny (lower q) runKeywords = true)
    (_hw : matchesAny (lower q) wicketKeywords = true) :
    ask_ai client ds q = runScorerBranch client ds q := by
  unfold ask_ai
  simp [hr]

/-- Witness for C4 at a concrete question containing both keyword kinds. -/
theorem ask_ai_run_branch_first_witness :
    matchesAny (lower "most runs and wickets") runKeywords = true ∧
    matchesAny (lower "most runs and wickets") wicketKeywords = true ∧
    ask_ai stubClient exTable "most runs and wickets" =
      runScorerBranch stubClient exTable "most runs and wickets" :=
  ⟨by decide, by decide,
    ask_ai_run_branch_first stubClient exTable "most runs and wickets" (by decide) (by decide)⟩

/-- Claim C9: comparing a player against itself yields identical stats in both
slots — the fact block is built from the same (runs, strike rate, matches) tuple
twice and the chart holds two equal bars with the same label — with no
special-case guard for equal inputs. -/
theorem compare_players_self (client : Client) (ds : List Delivery) (p : String)
    (r : Nat) (sr : ℚ) (m : Nat) (bs : String) (ans : String)
    (hps : player_stats ds p = .ok (r, sr, m, bs))
    (hc : client (mkPrompt (compareFacts p r sr m p r sr m)
        ("Compare " ++ p ++ " vs " ++ p)) = .ok ans) :
    compare_players client ds p p = .ok (pyStrip ans, [(p, r), (p, r)]) := by
  unfold compare_players
  rw [hps]
  dsimp only
  unfold llm_answer
  rw [hc]
  rfl

/-- Witness for C9 at a concrete table and client. -/
theorem compare_players_self_witness :
    compare_players stubClient oneBall "A" "A" = .ok ("ANS", [("A", 4), ("A", 4)]) := by
  have h400 : strikeRateOf oneBall "A" = 400 := by
    norm_num [strikeRateOf, ballsOf, deliveriesOf, oneBall, runsOfBatter, round2, List.filter]
  have hps : player_stats oneBall "A" = .ok (4, 400, 1, "2020") := by
    rw [player_stats]
    rw [show idxmax? (seasonGroupsOf oneBall "A") = some "2020" from by decide]
    rw [h400]
    rfl
  exact compare_players_self stubClient oneBall "A" 4 400 1 "2020" "ANS" hps rfl

/-- Claim C1 counterexample: for a player name absent from the batter set the
call does not return empty aggregates — it raises (`idxmax` of an empty
grouping), modelled as a `ValueError` outcome. -/
theorem player_stats_unknown_cex : player_stats exTable "Nobody" = .error .valueError := rfl

/-- Claim C1 amended: for an unknown player the aggregates computed before
`best_season` are all zero (zero runs, zero balls, strike rate 0), but
`player_stats` then fails hard with a `ValueError` from `idxmax` on the empty
per-season grouping instead of returning them. -/
theorem player_stats_unknown (ds : List Delivery) (p : String)
    (h : ∀ d ∈ ds, d.batter ≠ some p) :
    runsOfBatter ds p = 0 ∧ ballsOf ds p = 0 ∧ strikeRateOf ds p = 0 ∧
    player_stats ds p = .error .valueError := by
  have hfil : deliveriesOf ds p = [] := by
    apply List.filter_eq_nil_iff.mpr
    intro d hd
    simp only [beq_iff_eq]
    exact h d hd
  refine ⟨?_, ?_, ?_, ?_⟩
  · simp [runsOfBatter, hfil]
  · simp [ballsOf, hfil]
  · simp [strikeRateOf, ballsOf, hfil]
  · unfold player_stats
    rw [show seasonGroupsOf ds p = [] from by simp [seasonGroupsOf, hfil, sortedKeys]]
    rfl

/-- Witness for the amended C1 at a concrete table. -/
theorem player_stats_unknown_witness :
    runsOfBatter exTable "Ghost" = 0 ∧ ballsOf exTable "Ghost" = 0 ∧
    strikeRateOf exTable "Ghost" = 0 ∧ player_stats exTable "Ghost" = .error .valueError :=
  player_stats_unknown exTable "Ghost" (by decide)

/-- Claim C7 counterexample: a player with zero balls faced (appears only as a
bowler) does not get strike rate 0 returned — `player_stats` fails with a
`ValueError` before returning. -/
theorem player_stats_zero_balls_cex :
    ballsOf bowlerOnly "NoBat" = 0 ∧ player_stats bowlerOnly "NoBat" = .error .valueError :=
  ⟨rfl, rfl⟩

/-- Claim C7 amended: with zero balls faced the strike-rate expression is indeed
guarded — it evaluates to 0 with no division — but `player_stats` then raises a
`ValueError` at `best_season` instead of returning that 0. -/
theorem strike_rate_guard (ds : List Delivery) (p : String) (h : ballsOf ds p = 0) :
    strikeRateOf ds p = 0 ∧ player_stats ds p = .error .valueError := by
  have hfil : deliveriesOf ds p = [] := List.length_eq_zero.mp h
  constructor
  · simp [strikeRateOf, h]
  · unfold player_stats
    rw [show seasonGroupsOf ds p = [] from by simp [seasonGroupsOf, hfil, sortedKeys]]
    rfl

/-- Witness for the amended C7 at a concrete table. -/
theorem strike_rate_guard_witness :
    strikeRateOf exTable "Zed" = 0 ∧ player_stats exTable "Zed" = .error .valueError :=
  strike_rate_guard exTable "Zed" (by decide)

/-- Claim C2 counterexample: with a failing remote client, `ask_ai` on a matched
question does not return a visible error string — it produces no `ok` triple at
all; the failure propagates as the raised error. -/
theorem ask_ai_remote_failure_cex :
    ask_ai failClient exTable "total runs" = .error (.remote "boom") ∧
    ¬ ∃ out : String × Option Chart × String,
        ask_ai failClient exTable "total runs" = .ok out := by
  refine ⟨rfl, ?_⟩
  rintro ⟨out, h⟩
  rw [show ask_ai failClient exTable "total runs" = .error (.remote "boom") from rfl] at h
  exact Except.noConfusion h

/-- Claim C2 amended: `ask_ai` has no exception handling, so when the remote call
fails the error propagates out of `ask_ai` unchanged (on any question, matched or
fallback, provided the matched branches reach the call). -/
theorem ask_ai_remote_failure_propagates (ds : List Delivery) (q : String) (e : PyError)
    (h1 : top_run_scorers ds ≠ []) (h2 : top_wicket_takers ds ≠ []) :
    ask_ai (fun _ => .error e) ds q = .error e := by
  unfold ask_ai
  by_cases hr : matchesAny (lower q) runKeywords = true
  · simp only [hr, if_true]
    unfold runScorerBranch
    rcases List.exists_cons_of_ne_nil h1 with ⟨a, l, hl⟩
    rw [hl]
    rfl
  · simp only [Bool.not_eq_true] at hr
    simp only [hr, Bool.false_eq_true, if_false]
    by_cases hw : matchesAny (lower q) wicketKeywords = true
    · simp only [hw, if_true]
      unfold wicketTakerBranch
      rcases List.exists_cons_of_ne_nil h2 with ⟨a, l, hl⟩
      rw [hl]
      rfl
    · simp only [Bool.not_eq_true] at hw
      simp only [hw, Bool.false_eq_true, if_false]
      rfl

/-- Witness for the amended C2 at a concrete table and question. -/
theorem ask_ai_remote_failure_propagates_witness :
    ask_ai (fun _ => .error (.remote "down")) exTable "leading wicket taker" =
      .error (.remote "down") :=
  ask_ai_remote_failure_propagates exTable "leading wicket taker" (.remote "down")
    (by decide) (by decide)

/-- Claim C3 counterexample: for a matched question the third element of the
returned triple is the empty string, not the original question echoed. -/
theorem ask_ai_echo_cex :
    ask_ai stubClient exTable "most runs please" =
      .ok ("ANS", some [("A", 10), ("B", 1)], "") ∧ ("" : String) ≠ "most runs please" :=
  ⟨rfl, by decide⟩

/-- Claim C3 amended: whenever `ask_ai` returns a triple, its third element is the
empty string — for matched intents as well as fallback, the question is never
echoed — and a chart is present exactly when a run or wicket keyword matched. -/
theorem ask_ai_third_component (client : Client) (ds : List Delivery) (q : String)
    (a : String) (c : Option Chart) (s : String)
    (h : ask_ai client ds q = .ok (a, c, s)) :
    s = "" ∧ c.isSome =
      (matchesAny (lower q) runKeywords || matchesAny (lower q) wicketKeywords) := by
  unfold ask_ai at h
  by_cases hr : matchesAny (lower q) runKeywords = true
  · simp only [hr, if_true] at h
    unfold runScorerBranch at h
    rcases htop : top_run_scorers ds with _ | ⟨leader, rest⟩
    · rw [htop] at h
      exact Except.noConfusion h
    · rw [htop] at h
      rcases except_map_ok h with ⟨v, _, hout⟩
      have hs : s = "" := congrArg (fun t => t.2.2) hout
      have hcc : c = some (leader :: rest) := congrArg (fun t => t.2.1) hout
      exact ⟨hs, by simp [hcc, hr]⟩
  · simp only [Bool.not_eq_true] at hr
    simp only [hr, Bool.false_eq_true, if_false] at h
    by_cases hw : matchesAny (lower q) wicketKeywords = true
    · simp only [hw, if_true] at h
      unfold wicketTakerBranch at h
      rcases htop : top_wicket_takers ds with _ | ⟨leader, rest⟩
      · rw [htop] at h
        exact Except.noConfusion h
      · rw [htop] at h
        rcases except_map_ok h with ⟨v, _, hout⟩
        have hs : s = "" := congrArg (fun t => t.2.2) hout
        have hcc : c = some (leader :: rest) := congrArg (fun t => t.2.1) hout
        exact ⟨hs, by simp [hcc, hr, hw]⟩
    · simp only [Bool.not_eq_true] at hw
      simp only [hw, Bool.false_eq_true, if_false] at h
      rcases except_map_ok h with ⟨v, _, hout⟩
      have hs : s = "" := congrArg (fun t => t.2.2) hout
      have hcc : c = none := congrArg (fun t => t.2.1) hout
      exact ⟨hs, by simp [hcc, hr, hw]⟩

/-- Witness for the amended C3 at a concrete fallback question. -/
theorem ask_ai_third_component_witness :
    ("" : String) = "" ∧ (none : Option Chart).isSome =
      (matchesAny (lower "weather today") runKeywords ||
        matchesAny (lower "weather today") wicketKeywords) :=
  ask_ai_third_component stubClient exTable "weather today" "ANS" none "" rfl

end Cricket
